import Mathlib

/-!
Verification development for the DevDriver event-protocol server session
(`ddEventServerSession.cpp`).  The session state machine, its request
handlers and the event-streaming drain loop are embedded as executable
Lean functions; external collaborators (transport, block-transfer
subsystem, provider registry) are supplied as scripted parameters.
-/

set_option linter.unusedVariables false

namespace EventProtocol

/-- Transport / operation result codes.  The receive path of the session
asserts that only these four codes ever appear, so the model restricts the
`Result` type to them. -/
inductive Result
  | Success
  | Error
  | NotReady
  | EndOfStream
deriving DecidableEq, Repr

/-- The session state enum (`SessionState` in the source):
`ReceivePayload`, `ProcessPayload`, `SendPayload`. -/
inductive SessionState
  | ReceivePayload
  | ProcessPayload
  | SendPayload
deriving DecidableEq, Repr

/-- Modelled from the spec: a provider-update record header is
self-describing via the byte offset to the next record
(`ProviderUpdateHeader::GetNextProviderUpdateOffset`); the header type
itself lives in a protocol header file outside the sources. -/
structure ProviderUpdateHeader where
  nextOffset : Nat
deriving DecidableEq, Repr

instance : Inhabited ProviderUpdateHeader := ⟨⟨0⟩⟩

/-- Modelled from the spec: the invalid-block sentinel
(`TransferProtocol::kInvalidBlockId`). -/
def kInvalidBlockId : Nat := 0

/-- Modelled from the spec: an exclusively-owned server block of the
block-transfer subsystem.  `records` is the reinterpretation oracle for the
block's bytes: `records.getD off default` is the provider-update header
obtained by reinterpreting the block data at byte offset `off`.
`size` is `GetBlockDataSize()`. -/
structure ServerBlock where
  blockId : Nat
  size : Nat
  records : List ProviderUpdateHeader
deriving DecidableEq, Repr

/-- The record header read at a byte offset of the block (the
`reinterpret_cast` of `VoidPtrInc(GetBlockData(), byteOffset)`). -/
def ServerBlock.recordAt (b : ServerBlock) (off : Nat) : ProviderUpdateHeader :=
  b.records.getD off default

/-- Modelled from the spec: the contents of the session's
`SizedPayloadContainer`, one payload shape per command. -/
inductive Payload
  | queryProvidersRequest
  | allocateProviderUpdatesRequest
  | applyProviderUpdatesRequest
  | queryProvidersResponse (status : Result) (blockId : Nat)
  | allocateProviderUpdatesResponse (status : Result) (blockId : Nat)
  | applyProviderUpdatesResponse (status : Result)
deriving DecidableEq, Repr

/-- An event chunk (`EventChunk`): a pooled buffer of produced event bytes. -/
structure EventChunk where
  data : List Nat
deriving DecidableEq, Repr

/-- Declared data size of a chunk (`EventChunk::dataSize`). -/
def EventChunk.dataSize (c : EventChunk) : Nat := c.data.length

/-- A queue entry (`EventChunkInfo`): a chunk plus the cursor of bytes of it
already handed to the transport (`bytesSent`). -/
structure EventChunkInfo where
  chunk : EventChunk
  bytesSent : Nat
deriving DecidableEq, Repr

/-- Per-connection session state (`EventServerSession`).  The event-chunk
queue is owned by the server (`m_pServer->m_eventChunkQueue`); it is inlined
here because exactly one session drains it. -/
structure EventServerSession where
  state : SessionState
  payloadContainer : Payload
  updateBlock : Option ServerBlock
  eventPayloadPending : Bool
  eventPayloadContainer : List Nat
  eventChunkQueue : List EventChunkInfo
deriving DecidableEq, Repr

/-- External collaborators for one advance call: the transport's receive
outcome and received payload, the scripted send outcomes (consumed one per
`Send` call), the block-transfer subsystem's `OpenServerBlock` outcome, the
registry's `ApplyProviderUpdate` callback and `BuildQueryProvidersResponse`
outcome, and the `kMaxEventDataSize` bound. -/
structure Env where
  recvResult : Result
  recvPayload : Payload
  sendOracle : List Result
  openBlockResult : Option ServerBlock
  applyUpdate : ProviderUpdateHeader → Result
  queryProvidersResult : Result × Nat
  maxEventDataSize : Nat

/-- One non-blocking send against the transport: consume the next scripted
result.  An exhausted script behaves as a transport that is not ready. -/
def sendStep : List Result → Result × List Result
  | [] => (Result.NotReady, [])
  | r :: rest => (r, rest)

/-- Output of the inner slice loop of `SendEventData` (source lines
239-258): the front chunk's cursor, the outbound event-message container
`m_eventPayloadContainer`, the remaining send script, the messages the
transport accepted (in order), and the last send result. -/
structure SliceOut where
  bytesSent : Nat
  container : List Nat
  oracle : List Result
  accepted : List (List Nat)
  result : Result
deriving DecidableEq, Repr

/-- The inner `while (bytesRemaining > 0)` loop of `SendEventData`: slice
off `min(bytesRemaining, kMaxEventDataSize)` bytes, build the event-data
message, advance the cursor, then attempt a non-blocking send; on a
non-`Success` result stop (the caller marks the built message pending).
The `0 < maxSize` conjunct only renders the recursion total: in the source
`kMaxEventDataSize` is a positive compile-time constant. -/
def sliceLoop (maxSize : Nat) (data : List Nat) (bytesSent : Nat)
    (container : List Nat) (oracle : List Result) : SliceOut :=
  if h : bytesSent < data.length ∧ 0 < maxSize then
    let bytesToSend := min (data.length - bytesSent) maxSize
    let msg := (data.drop bytesSent).take bytesToSend
    let step := sendStep oracle
    if step.1 = Result.Success then
      let out := sliceLoop maxSize data (bytesSent + bytesToSend) msg step.2
      { out with accepted := msg :: out.accepted }
    else
      { bytesSent := bytesSent + bytesToSend
        container := msg
        oracle := step.2
        accepted := []
        result := step.1 }
  else
    { bytesSent := bytesSent
      container := container
      oracle := oracle
      accepted := []
      result := Result.Success }
termination_by data.length - bytesSent
decreasing_by
  obtain ⟨h1, h2⟩ := h
  omega

/-- Output of the outer chunk loop of `SendEventData` (source lines
223-291): the remaining queue, the pending flag and message container, the
remaining send script, the accepted messages, the chunks returned to the
pool, and whether a debug assertion fired. -/
structure DrainOut where
  queue : List EventChunkInfo
  pending : Bool
  container : List Nat
  oracle : List Result
  accepted : List (List Nat)
  freed : List EventChunk
  fatal : Bool
deriving DecidableEq, Repr

/-- The outer `while (eventQueue.IsEmpty() == false)` loop of
`SendEventData`: peek the front chunk, stream its remaining bytes through
the slice loop; on `Success` pop and free it and continue; on `NotReady`
mark the message pending, pop and free the chunk only if its bytes are
exhausted, and stop; on any other result mark the message pending, leave
the chunk queued, and stop.  `fatal` records the debug assertions
`dataSize > 0` and `bytesRemaining > 0`. -/
def chunkLoop (maxSize : Nat) (queue : List EventChunkInfo)
    (container : List Nat) (oracle : List Result) : DrainOut :=
  match queue with
  | [] =>
    { queue := []
      pending := false
      container := container
      oracle := oracle
      accepted := []
      freed := []
      fatal := false }
  | ci :: rest =>
    let chunk := ci.chunk
    let fatal0 : Bool := decide (chunk.dataSize = 0 ∨ chunk.dataSize - ci.bytesSent = 0)
    let out := sliceLoop maxSize chunk.data ci.bytesSent container oracle
    if out.result = Result.Success then
      let next := chunkLoop maxSize rest out.container out.oracle
      { next with
        accepted := out.accepted ++ next.accepted
        freed := chunk :: next.freed
        fatal := fatal0 || next.fatal }
    else if out.result = Result.NotReady then
      if chunk.dataSize - out.bytesSent = 0 then
        { queue := rest
          pending := true
          container := out.container
          oracle := out.oracle
          accepted := out.accepted
          freed := [chunk]
          fatal := fatal0 }
      else
        { queue := { chunk := chunk, bytesSent := out.bytesSent } :: rest
          pending := true
          container := out.container
          oracle := out.oracle
          accepted := out.accepted
          freed := []
          fatal := fatal0 }
    else
      { queue := { chunk := chunk, bytesSent := out.bytesSent } :: rest
        pending := true
        container := out.container
        oracle := out.oracle
        accepted := out.accepted
        freed := []
        fatal := fatal0 }

/-- Result of one advance call or one drain invocation: the new session,
the remaining send script, the event messages the transport accepted, the
chunks returned to the pool, and whether a debug assertion or
`DD_UNREACHABLE` fired. -/
structure StepOut where
  session : EventServerSession
  oracle : List Result
  accepted : List (List Nat)
  freed : List EventChunk
  fatal : Bool
deriving DecidableEq, Repr

/-- `EventServerSession::SendEventData` (source lines 205-293): first retry
a pending event message; only if that send succeeds (clearing the flag) and
the queue is non-empty run the chunk loop. -/
def sendEventData (maxSize : Nat) (s : EventServerSession)
    (oracle : List Result) : StepOut :=
  let stage :=
    if s.eventPayloadPending then
      let st := sendStep oracle
      if st.1 = Result.Success then
        (Result.Success, st.2, [s.eventPayloadContainer], false)
      else
        (st.1, st.2, ([] : List (List Nat)), true)
    else
      (Result.Success, oracle, ([] : List (List Nat)), false)
  match stage with
  | (r0, oracle0, accepted0, pending0) =>
    if r0 = Result.Success ∧ s.eventChunkQueue ≠ [] then
      let out := chunkLoop maxSize s.eventChunkQueue s.eventPayloadContainer oracle0
      { session := { s with
          eventPayloadPending := out.pending
          eventPayloadContainer := out.container
          eventChunkQueue := out.queue }
        oracle := out.oracle
        accepted := accepted0 ++ out.accepted
        freed := out.freed
        fatal := out.fatal }
    else
      { session := { s with eventPayloadPending := pending0 }
        oracle := oracle0
        accepted := accepted0
        freed := []
        fatal := false }

/-- `EventServerSession::HandleQueryProvidersRequest` (source lines
142-150): ask the registry to build the catalogue block
(`BuildQueryProvidersResponse`), encode `(status, blockId)` into the
container, and move to `SendPayload`. -/
def handleQueryProvidersRequest (env : Env) (s : EventServerSession) :
    EventServerSession :=
  { s with
    payloadContainer := Payload.queryProvidersResponse
      env.queryProvidersResult.1 env.queryProvidersResult.2
    state := SessionState.SendPayload }

/-- `EventServerSession::HandleAllocateProviderUpdatesRequest` (source
lines 152-172): only when no update block is held, open one via the
transfer manager; encode `(status, blockId)` and move to `SendPayload`. -/
def handleAllocateProviderUpdatesRequest (env : Env) (s : EventServerSession) :
    EventServerSession :=
  if s.updateBlock = none then
    match env.openBlockResult with
    | some b =>
      { s with
        updateBlock := some b
        payloadContainer := Payload.allocateProviderUpdatesResponse Result.Success b.blockId
        state := SessionState.SendPayload }
    | none =>
      { s with
        updateBlock := none
        payloadContainer := Payload.allocateProviderUpdatesResponse Result.Error kInvalidBlockId
        state := SessionState.SendPayload }
  else
    { s with
      payloadContainer := Payload.allocateProviderUpdatesResponse Result.Error kInvalidBlockId
      state := SessionState.SendPayload }

/-- The record walk of `HandleApplyProviderUpdatesRequest` (source lines
182-191): while the cursor is inside the block and the last apply
succeeded, apply the record at the cursor and advance by its next-record
offset.  `applied` collects the byte offsets at which a record was handed
to the registry.  The walk is genuinely partial (a zero offset with a
successful apply loops forever), hence the fuel; `none` models
divergence. -/
def applyWalk (fuel size : Nat) (recordAt : Nat → ProviderUpdateHeader)
    (applyFn : ProviderUpdateHeader → Result) (byteOffset : Nat) (result : Result)
    (applied : List Nat) : Option (Result × Nat × List Nat) :=
  if byteOffset < size ∧ result = Result.Success then
    match fuel with
    | 0 => none
    | fuel' + 1 =>
      let hdr := recordAt byteOffset
      applyWalk fuel' size recordAt applyFn (byteOffset + hdr.nextOffset) (applyFn hdr)
        (applied ++ [byteOffset])
  else
    some (result, byteOffset, applied)

/-- `EventServerSession::HandleApplyProviderUpdatesRequest` (source lines
174-203): with no open block the status is `Error`; otherwise walk the
block's records.  The boolean records the debug assertion
`byteOffset == GetBlockDataSize()` firing on a successful walk whose cursor
missed the declared size; the status reported in the response is the walk
result either way.  `none` models a diverging walk. -/
def handleApplyProviderUpdatesRequest (env : Env) (s : EventServerSession) :
    Option (EventServerSession × Bool) :=
  match s.updateBlock with
  | none =>
    some ({ s with
      payloadContainer := Payload.applyProviderUpdatesResponse Result.Error
      state := SessionState.SendPayload }, false)
  | some b =>
    match applyWalk b.size b.size b.recordAt env.applyUpdate 0 Result.Success [] with
    | none => none
    | some (result, byteOffset, _applied) =>
      some ({ s with
        payloadContainer := Payload.applyProviderUpdatesResponse result
        state := SessionState.SendPayload },
        decide (result = Result.Success ∧ byteOffset ≠ b.size))

/-- `EventServerSession::UpdateSession` (source lines 64-140): one bounded,
non-blocking advance step of the session state machine.  `fatal` records a
`DD_UNREACHABLE` / `DD_ASSERT` firing (the release build continues as
coded); `none` models a diverging record walk. -/
def updateSession (env : Env) (s : EventServerSession) : Option StepOut :=
  match s.state with
  | SessionState.ReceivePayload =>
    if env.recvResult = Result.Success then
      some { session := { s with
               state := SessionState.ProcessPayload
               payloadContainer := env.recvPayload }
             oracle := env.sendOracle
             accepted := []
             freed := []
             fatal := false }
    else if env.recvResult = Result.NotReady then
      some (sendEventData env.maxEventDataSize s env.sendOracle)
    else
      some { session := s
             oracle := env.sendOracle
             accepted := []
             freed := []
             fatal := false }
  | SessionState.ProcessPayload =>
    match s.payloadContainer with
    | Payload.queryProvidersRequest =>
      some { session := handleQueryProvidersRequest env s
             oracle := env.sendOracle
             accepted := []
             freed := []
             fatal := false }
    | Payload.allocateProviderUpdatesRequest =>
      some { session := handleAllocateProviderUpdatesRequest env s
             oracle := env.sendOracle
             accepted := []
             freed := []
             fatal := false }
    | Payload.applyProviderUpdatesRequest =>
      match handleApplyProviderUpdatesRequest env s with
      | none => none
      | some (s2, fatal) =>
        some { session := s2
               oracle := env.sendOracle
               accepted := []
               freed := []
               fatal := fatal }
    | _ =>
      some { session := s
             oracle := env.sendOracle
             accepted := []
             freed := []
             fatal := true }
  | SessionState.SendPayload =>
    match sendStep env.sendOracle with
    | (r, rest) =>
      if r = Result.Success then
        some { session := { s with state := SessionState.ReceivePayload }
               oracle := rest
               accepted := []
               freed := []
               fatal := false }
      else
        some { session := s
               oracle := rest
               accepted := []
               freed := []
               fatal := false }

/-- Accumulated outcome of a sequence of drain invocations. -/
structure RunOut where
  session : EventServerSession
  accepted : List (List Nat)
  freed : List EventChunk
deriving DecidableEq, Repr

/-- Repeated invocations of the drain, one scripted send list per call
(the driving loop calling the session whenever the control channel is
idle). -/
def runDrains (maxSize : Nat) (s : EventServerSession) :
    List (List Result) → RunOut
  | [] => { session := s, accepted := [], freed := [] }
  | o :: os =>
    let out := sendEventData maxSize s o
    let next := runDrains maxSize out.session os
    { session := next.session
      accepted := out.accepted ++ next.accepted
      freed := out.freed ++ next.freed }

/-- Bytes of a previously built event message still awaiting delivery. -/
def pendBytes (s : EventServerSession) : List Nat :=
  if s.eventPayloadPending then s.eventPayloadContainer else []

/-- The already-captured prefix of the front chunk's bytes. -/
def countedFront : List EventChunkInfo → List Nat
  | [] => []
  | ci :: _ => ci.chunk.data.take ci.bytesSent

/-- Every queued chunk behind the front has an untouched cursor (only the
front chunk's cursor is ever advanced by the drain). -/
def tailZero : List EventChunkInfo → Prop
  | [] => True
  | _ :: rest => ∀ ci ∈ rest, ci.bytesSent = 0

/-- The front cursor never exceeds its chunk's declared size. -/
def frontLe : List EventChunkInfo → Prop
  | [] => True
  | ci :: _ => ci.bytesSent ≤ ci.chunk.dataSize

/-- Concatenated data bytes of a list of chunks. -/
def chunkBytes (l : List EventChunk) : List Nat := (l.map EventChunk.data).flatten

/-- Concatenated bytes of a list of event-data messages. -/
def msgBytes (l : List (List Nat)) : List Nat := l.flatten

/-- A default environment for concrete instances: transport not ready,
empty send script, no block available, a registry that accepts every
update. -/
def baseEnv : Env :=
  { recvResult := Result.NotReady
    recvPayload := Payload.queryProvidersRequest
    sendOracle := []
    openBlockResult := none
    applyUpdate := fun _ => Result.Success
    queryProvidersResult := (Result.Success, 0)
    maxEventDataSize := 512 }

/-- A freshly created session: receiving, no block, no pending event
message, empty queue. -/
def baseSession : EventServerSession :=
  { state := SessionState.ReceivePayload
    payloadContainer := Payload.queryProvidersRequest
    updateBlock := none
    eventPayloadPending := false
    eventPayloadContainer := []
    eventChunkQueue := [] }

/-- A concrete server block for allocation instances. -/
def blockW : ServerBlock := { blockId := 7, size := 0, records := [] }

/-- A session with a pending event message. -/
def sPendW : EventServerSession :=
  { baseSession with eventPayloadPending := true, eventPayloadContainer := [9] }

/-- A session with one queued two-byte chunk. -/
def sErrW : EventServerSession :=
  { baseSession with eventChunkQueue := [{ chunk := { data := [5, 6] }, bytesSent := 0 }] }

/-- A session with one queued 1000-byte chunk. -/
def s7W : EventServerSession :=
  { baseSession with
    eventChunkQueue := [{ chunk := { data := List.replicate 1000 0 }, bytesSent := 0 }] }

/-- A session with one queued three-byte chunk. -/
def sC1W : EventServerSession :=
  { baseSession with eventChunkQueue := [{ chunk := { data := [1, 2, 3] }, bytesSent := 0 }] }

/-- A session about to send a response. -/
def sSendW : EventServerSession :=
  { baseSession with state := SessionState.SendPayload }

lemma sliceLoop_done (maxSize : Nat) (data : List Nat) (bytesSent : Nat)
    (container : List Nat) (oracle : List Result)
    (h : ¬(bytesSent < data.length ∧ 0 < maxSize)) :
    sliceLoop maxSize data bytesSent container oracle =
      { bytesSent := bytesSent
        container := container
        oracle := oracle
        accepted := []
        result := Result.Success } := by
  rw [sliceLoop]
  simp [h]

lemma sliceLoop_succ (maxSize : Nat) (data : List Nat) (bytesSent : Nat)
    (container : List Nat) (rest : List Result)
    (h1 : bytesSent < data.length) (h2 : 0 < maxSize) :
    sliceLoop maxSize data bytesSent container (Result.Success :: rest) =
      { sliceLoop maxSize data (bytesSent + min (data.length - bytesSent) maxSize)
          ((data.drop bytesSent).take (min (data.length - bytesSent) maxSize)) rest with
        accepted :=
          ((data.drop bytesSent).take (min (data.length - bytesSent) maxSize)) ::
          (sliceLoop maxSize data (bytesSent + min (data.length - bytesSent) maxSize)
            ((data.drop bytesSent).take (min (data.length - bytesSent) maxSize)) rest).accepted } := by
  rw [sliceLoop]
  simp [h1, h2, sendStep]

lemma sliceLoop_fail (maxSize : Nat) (data : List Nat) (bytesSent : Nat)
    (container : List Nat) (r : Result) (rest : List Result)
    (h1 : bytesSent < data.length) (h2 : 0 < maxSize) (hr : r ≠ Result.Success) :
    sliceLoop maxSize data bytesSent container (r :: rest) =
      { bytesSent := bytesSent + min (data.length - bytesSent) maxSize
        container := (data.drop bytesSent).take (min (data.length - bytesSent) maxSize)
        oracle := rest
        accepted := []
        result := r } := by
  rw [sliceLoop]
  simp [h1, h2, sendStep, hr]

lemma sliceLoop_nil (maxSize : Nat) (data : List Nat) (bytesSent : Nat)
    (container : List Nat)
    (h1 : bytesSent < data.length) (h2 : 0 < maxSize) :
    sliceLoop maxSize data bytesSent container [] =
      { bytesSent := bytesSent + min (data.length - bytesSent) maxSize
        container := (data.drop bytesSent).take (min (data.length - bytesSent) maxSize)
        oracle := []
        accepted := []
        result := Result.NotReady } := by
  rw [sliceLoop]
  simp [h1, h2, sendStep]

@[simp] lemma msgBytes_nil : msgBytes [] = [] := rfl
@[simp] lemma msgBytes_cons (m : List Nat) (l : List (List Nat)) :
    msgBytes (m :: l) = m ++ msgBytes l := rfl
@[simp] lemma msgBytes_append (a b : List (List Nat)) :
    msgBytes (a ++ b) = msgBytes a ++ msgBytes b := by
  simp [msgBytes]

@[simp] lemma chunkBytes_nil : chunkBytes [] = [] := rfl
@[simp] lemma chunkBytes_cons (c : EventChunk) (l : List EventChunk) :
    chunkBytes (c :: l) = c.data ++ chunkBytes l := rfl
@[simp] lemma chunkBytes_append (a b : List EventChunk) :
    chunkBytes (a ++ b) = chunkBytes a ++ chunkBytes b := by
  simp [chunkBytes]

lemma sliceLoop_spec (maxSize : Nat) (data : List Nat) (hmax : 0 < maxSize) :
    ∀ (n bytesSent : Nat) (container : List Nat) (oracle : List Result),
      data.length - bytesSent ≤ n → bytesSent ≤ data.length →
      bytesSent ≤ (sliceLoop maxSize data bytesSent container oracle).bytesSent ∧
      (sliceLoop maxSize data bytesSent container oracle).bytesSent ≤ data.length ∧
      ((sliceLoop maxSize data bytesSent container oracle).result = Result.Success →
        (sliceLoop maxSize data bytesSent container oracle).bytesSent = data.length) ∧
      msgBytes (sliceLoop maxSize data bytesSent container oracle).accepted ++
          (if (sliceLoop maxSize data bytesSent container oracle).result = Result.Success
            then [] else (sliceLoop maxSize data bytesSent container oracle).container)
        = (data.drop bytesSent).take
            ((sliceLoop maxSize data bytesSent container oracle).bytesSent - bytesSent) := by
  intro n
  induction n with
  | zero =>
    intro bytesSent container oracle hn hb
    rw [sliceLoop_done maxSize data bytesSent container oracle (by omega)]
    have heq : bytesSent = data.length := by omega
    simp [heq]
  | succ n ih =>
    intro bytesSent container oracle hn hb
    by_cases hlt : bytesSent < data.length
    · have ht1 : 1 ≤ min (data.length - bytesSent) maxSize := by omega
      have ht2 : min (data.length - bytesSent) maxSize ≤ data.length - bytesSent := by omega
      match oracle with
      | [] =>
        rw [sliceLoop_nil maxSize data bytesSent container hlt hmax]
        dsimp only
        refine ⟨by omega, by omega, by simp, ?_⟩
        simp only [msgBytes_nil, List.nil_append, if_neg (by simp : ¬Result.NotReady = Result.Success)]
        congr 1
        omega
      | r :: rest =>
        by_cases hr : r = Result.Success
        · subst hr
          rw [sliceLoop_succ maxSize data bytesSent container rest hlt hmax]
          obtain ⟨ih1, ih2, ih3, ih4⟩ :=
            ih (bytesSent + min (data.length - bytesSent) maxSize)
              ((data.drop bytesSent).take (min (data.length - bytesSent) maxSize)) rest
              (by omega) (by omega)
          dsimp only
          refine ⟨by omega, by omega, by exact ih3, ?_⟩
          simp only [msgBytes_cons, List.append_assoc, ih4]
          have harith :
              (sliceLoop maxSize data (bytesSent + min (data.length - bytesSent) maxSize)
                ((data.drop bytesSent).take (min (data.length - bytesSent) maxSize)) rest).bytesSent
                - bytesSent
              = min (data.length - bytesSent) maxSize +
                ((sliceLoop maxSize data (bytesSent + min (data.length - bytesSent) maxSize)
                  ((data.drop bytesSent).take (min (data.length - bytesSent) maxSize)) rest).bytesSent
                  - (bytesSent + min (data.length - bytesSent) maxSize)) := by
            omega
          rw [harith, List.take_add]
          congr 1
          rw [List.drop_drop]
        · rw [sliceLoop_fail maxSize data bytesSent container r rest hlt hmax hr]
          dsimp only
          refine ⟨by omega, by omega, by intro hc; exact absurd hc hr, ?_⟩
          simp only [msgBytes_nil, List.nil_append, if_neg hr]
          congr 1
          omega
    · rw [sliceLoop_done maxSize data bytesSent container oracle (by omega)]
      have heq : bytesSent = data.length := by omega
      simp [heq]




lemma take_glue (l : List Nat) (b k : Nat) (h : b ≤ k) :
    l.take b ++ (l.drop b).take (k - b) = l.take k := by
  conv_rhs => rw [show k = b + (k - b) by omega]
  rw [List.take_add]

lemma tailZero_rest (ci : EventChunkInfo) (rest : List EventChunkInfo)
    (h : tailZero (ci :: rest)) :
    tailZero rest ∧ frontLe rest ∧ countedFront rest = [] := by
  cases rest with
  | nil => exact ⟨trivial, trivial, rfl⟩
  | cons c2 r2 =>
    simp only [tailZero] at h
    have hz : c2.bytesSent = 0 := h c2 (by simp)
    refine ⟨?_, ?_, ?_⟩
    · simp only [tailZero]
      intro x hx
      exact h x (by simp [hx])
    · simp [frontLe, hz]
    · simp [countedFront, hz]

lemma chunkLoop_spec (maxSize : Nat) (hmax : 0 < maxSize) :
    ∀ (queue : List EventChunkInfo) (container : List Nat) (oracle : List Result),
      tailZero queue → frontLe queue →
      tailZero (chunkLoop maxSize queue container oracle).queue ∧
      frontLe (chunkLoop maxSize queue container oracle).queue ∧
      countedFront queue ++ msgBytes (chunkLoop maxSize queue container oracle).accepted ++
          (if (chunkLoop maxSize queue container oracle).pending
            then (chunkLoop maxSize queue container oracle).container else [])
        = chunkBytes (chunkLoop maxSize queue container oracle).freed ++
          countedFront (chunkLoop maxSize queue container oracle).queue := by
  intro queue
  induction queue with
  | nil =>
    intro container oracle h1 h2
    simp [chunkLoop, countedFront, tailZero, frontLe]
  | cons ci rest ih =>
    intro container oracle h1 h2
    obtain ⟨hz1, hz2, hz3⟩ := tailZero_rest ci rest h1
    have hble : ci.bytesSent ≤ ci.chunk.data.length := by
      simpa [frontLe, EventChunk.dataSize] using h2
    have hcf : countedFront (ci :: rest) = ci.chunk.data.take ci.bytesSent := rfl
    rw [chunkLoop]
    dsimp only
    set o := sliceLoop maxSize ci.chunk.data ci.bytesSent container oracle with ho
    obtain ⟨s1, s2, s3, s4⟩ := sliceLoop_spec maxSize ci.chunk.data hmax
      ci.chunk.data.length ci.bytesSent container oracle (by omega) hble
    rw [← ho] at s1 s2 s3 s4
    by_cases hres : o.result = Result.Success
    · rw [if_pos hres]
      set nx := chunkLoop maxSize rest o.container o.oracle with hnx
      obtain ⟨i1, i2, i3⟩ := ih o.container o.oracle hz1 hz2
      rw [← hnx] at i1 i2 i3
      rw [hz3] at i3
      simp only [List.nil_append] at i3
      dsimp only
      refine ⟨i1, i2, ?_⟩
      have hout : msgBytes o.accepted
          = (ci.chunk.data.drop ci.bytesSent).take (o.bytesSent - ci.bytesSent) := by
        simpa [if_pos hres] using s4
      have hlen : o.bytesSent = ci.chunk.data.length := s3 hres
      simp only [msgBytes_append, chunkBytes_cons, hcf]
      calc ci.chunk.data.take ci.bytesSent ++ (msgBytes o.accepted ++ msgBytes nx.accepted) ++
            (if nx.pending then nx.container else [])
          = (ci.chunk.data.take ci.bytesSent ++ msgBytes o.accepted) ++
            (msgBytes nx.accepted ++ (if nx.pending then nx.container else [])) := by
            simp [List.append_assoc]
        _ = ci.chunk.data ++ (chunkBytes nx.freed ++ countedFront nx.queue) := by
            rw [hout, hlen, take_glue ci.chunk.data ci.bytesSent ci.chunk.data.length hble,
              List.take_length, i3]
        _ = ci.chunk.data ++ chunkBytes nx.freed ++ countedFront nx.queue := by
            simp [List.append_assoc]
    · rw [if_neg hres]
      have hout : msgBytes o.accepted ++ o.container
          = (ci.chunk.data.drop ci.bytesSent).take (o.bytesSent - ci.bytesSent) := by
        simpa [if_neg hres] using s4
      by_cases hnr : o.result = Result.NotReady
      · rw [if_pos hnr]
        by_cases hdone : ci.chunk.dataSize - o.bytesSent = 0
        · rw [if_pos hdone]
          dsimp only
          refine ⟨hz1, hz2, ?_⟩
          have hlen : o.bytesSent = ci.chunk.data.length := by
            simp only [EventChunk.dataSize] at hdone
            omega
          rw [hz3]
          simp only [if_true, chunkBytes_cons, chunkBytes_nil, List.append_nil, hcf]
          rw [List.append_assoc, hout, hlen,
            take_glue ci.chunk.data ci.bytesSent ci.chunk.data.length hble, List.take_length]
        · rw [if_neg hdone]
          dsimp only
          refine ⟨by simpa [tailZero] using h1, ?_, ?_⟩
          · simpa [frontLe, EventChunk.dataSize] using s2
          · simp only [if_true, chunkBytes_nil, List.nil_append, countedFront, hcf]
            rw [List.append_assoc, hout,
              take_glue ci.chunk.data ci.bytesSent o.bytesSent s1]
      · rw [if_neg hnr]
        dsimp only
        refine ⟨by simpa [tailZero] using h1, ?_, ?_⟩
        · simpa [frontLe, EventChunk.dataSize] using s2
        · simp only [if_true, chunkBytes_nil, List.nil_append, countedFront, hcf]
          rw [List.append_assoc, hout,
            take_glue ci.chunk.data ci.bytesSent o.bytesSent s1]



lemma glue3 (a m i f c0 g c1 : List Nat) (h1 : a = f ++ c0)
    (h2 : c0 ++ (m ++ i) = g ++ c1) :
    a ++ (m ++ i) = f ++ (g ++ c1) := by
  rw [h1, List.append_assoc, h2]

lemma glue4 (a p m i f c0 g c1 : List Nat) (h1 : a ++ p = f ++ c0)
    (h2 : c0 ++ (m ++ i) = g ++ c1) :
    a ++ (p ++ (m ++ i)) = f ++ (g ++ c1) := by
  rw [← List.append_assoc, h1, List.append_assoc, h2]

lemma sendEventData_preserve (maxSize : Nat) (hmax : 0 < maxSize)
    (s : EventServerSession) (oracle : List Result)
    (A : List (List Nat)) (F : List EventChunk)
    (h1 : tailZero s.eventChunkQueue) (h2 : frontLe s.eventChunkQueue)
    (hinv : msgBytes A ++ pendBytes s = chunkBytes F ++ countedFront s.eventChunkQueue) :
    tailZero (sendEventData maxSize s oracle).session.eventChunkQueue ∧
    frontLe (sendEventData maxSize s oracle).session.eventChunkQueue ∧
    msgBytes (A ++ (sendEventData maxSize s oracle).accepted) ++
        pendBytes (sendEventData maxSize s oracle).session
      = chunkBytes (F ++ (sendEventData maxSize s oracle).freed) ++
        countedFront (sendEventData maxSize s oracle).session.eventChunkQueue := by
  cases hp : s.eventPayloadPending with
  | false =>
    have hpend : pendBytes s = [] := by simp [pendBytes, hp]
    rw [hpend] at hinv
    simp only [List.append_nil] at hinv
    by_cases hq : s.eventChunkQueue = []
    · have hout : sendEventData maxSize s oracle =
          { session := { s with eventPayloadPending := false }
            oracle := oracle
            accepted := []
            freed := []
            fatal := false } := by
        simp [sendEventData, hp, hq]
      rw [hout]
      dsimp only
      refine ⟨by simpa using h1, by simpa using h2, ?_⟩
      simpa [pendBytes] using hinv
    · have hout : sendEventData maxSize s oracle =
          { session := { s with
              eventPayloadPending := (chunkLoop maxSize s.eventChunkQueue s.eventPayloadContainer oracle).pending
              eventPayloadContainer := (chunkLoop maxSize s.eventChunkQueue s.eventPayloadContainer oracle).container
              eventChunkQueue := (chunkLoop maxSize s.eventChunkQueue s.eventPayloadContainer oracle).queue }
            oracle := (chunkLoop maxSize s.eventChunkQueue s.eventPayloadContainer oracle).oracle
            accepted := [] ++ (chunkLoop maxSize s.eventChunkQueue s.eventPayloadContainer oracle).accepted
            freed := (chunkLoop maxSize s.eventChunkQueue s.eventPayloadContainer oracle).freed
            fatal := (chunkLoop maxSize s.eventChunkQueue s.eventPayloadContainer oracle).fatal } := by
        simp [sendEventData, hp, hq]
      rw [hout]
      set cl := chunkLoop maxSize s.eventChunkQueue s.eventPayloadContainer oracle with hcl
      obtain ⟨c1, c2, c3⟩ := chunkLoop_spec maxSize hmax s.eventChunkQueue
        s.eventPayloadContainer oracle h1 h2
      rw [← hcl] at c1 c2 c3
      rw [List.append_assoc] at c3
      dsimp only
      refine ⟨c1, c2, ?_⟩
      simp only [List.nil_append, msgBytes_append, chunkBytes_append, pendBytes,
        List.append_assoc]
      exact glue3 (msgBytes A) (msgBytes cl.accepted)
        (if cl.pending = true then cl.container else [])
        (chunkBytes F) (countedFront s.eventChunkQueue)
        (chunkBytes cl.freed) (countedFront cl.queue) hinv c3
  | true =>
    have hpend : pendBytes s = s.eventPayloadContainer := by simp [pendBytes, hp]
    rw [hpend] at hinv
    obtain ⟨r, rest, hsend⟩ : ∃ r rest, sendStep oracle = (r, rest) := ⟨_, _, rfl⟩
    by_cases hr : r = Result.Success
    · subst hr
      by_cases hq : s.eventChunkQueue = []
      · have hout : sendEventData maxSize s oracle =
            { session := { s with eventPayloadPending := false }
              oracle := rest
              accepted := [s.eventPayloadContainer]
              freed := []
              fatal := false } := by
          simp [sendEventData, hp, hq, hsend]
        rw [hout]
        dsimp only
        refine ⟨by simpa using h1, by simpa using h2, ?_⟩
        simpa [pendBytes] using hinv
      · have hout : sendEventData maxSize s oracle =
            { session := { s with
                eventPayloadPending := (chunkLoop maxSize s.eventChunkQueue s.eventPayloadContainer rest).pending
                eventPayloadContainer := (chunkLoop maxSize s.eventChunkQueue s.eventPayloadContainer rest).container
                eventChunkQueue := (chunkLoop maxSize s.eventChunkQueue s.eventPayloadContainer rest).queue }
              oracle := (chunkLoop maxSize s.eventChunkQueue s.eventPayloadContainer rest).oracle
              accepted := [s.eventPayloadContainer] ++ (chunkLoop maxSize s.eventChunkQueue s.eventPayloadContainer rest).accepted
              freed := (chunkLoop maxSize s.eventChunkQueue s.eventPayloadContainer rest).freed
              fatal := (chunkLoop maxSize s.eventChunkQueue s.eventPayloadContainer rest).fatal } := by
          simp [sendEventData, hp, hq, hsend]
        rw [hout]
        set cl := chunkLoop maxSize s.eventChunkQueue s.eventPayloadContainer rest with hcl
        obtain ⟨c1, c2, c3⟩ := chunkLoop_spec maxSize hmax s.eventChunkQueue
          s.eventPayloadContainer rest h1 h2
        rw [← hcl] at c1 c2 c3
        rw [List.append_assoc] at c3
        dsimp only
        refine ⟨c1, c2, ?_⟩
        simp only [msgBytes_append, msgBytes_cons, msgBytes_nil, chunkBytes_append, pendBytes,
          List.append_nil, List.append_assoc]
        exact glue4 (msgBytes A) s.eventPayloadContainer (msgBytes cl.accepted)
          (if cl.pending = true then cl.container else [])
          (chunkBytes F) (countedFront s.eventChunkQueue)
          (chunkBytes cl.freed) (countedFront cl.queue) hinv c3
    · have hout : sendEventData maxSize s oracle =
          { session := { s with eventPayloadPending := true }
            oracle := rest
            accepted := []
            freed := []
            fatal := false } := by
        simp [sendEventData, hp, hsend, hr]
      rw [hout]
      dsimp only
      refine ⟨by simpa using h1, by simpa using h2, ?_⟩
      simpa [pendBytes] using hinv



lemma runDrains_preserve (maxSize : Nat) (hmax : 0 < maxSize) :
    ∀ (oracles : List (List Result)) (s : EventServerSession)
      (A : List (List Nat)) (F : List EventChunk),
      tailZero s.eventChunkQueue → frontLe s.eventChunkQueue →
      msgBytes A ++ pendBytes s = chunkBytes F ++ countedFront s.eventChunkQueue →
      tailZero (runDrains maxSize s oracles).session.eventChunkQueue ∧
      frontLe (runDrains maxSize s oracles).session.eventChunkQueue ∧
      msgBytes (A ++ (runDrains maxSize s oracles).accepted) ++
          pendBytes (runDrains maxSize s oracles).session
        = chunkBytes (F ++ (runDrains maxSize s oracles).freed) ++
          countedFront (runDrains maxSize s oracles).session.eventChunkQueue := by
  intro oracles
  induction oracles with
  | nil =>
    intro s A F h1 h2 hinv
    simp only [runDrains]
    refine ⟨h1, h2, ?_⟩
    simpa using hinv
  | cons o os ih =>
    intro s A F h1 h2 hinv
    obtain ⟨p1, p2, p3⟩ := sendEventData_preserve maxSize hmax s o A F h1 h2 hinv
    obtain ⟨q1, q2, q3⟩ := ih (sendEventData maxSize s o).session
      (A ++ (sendEventData maxSize s o).accepted) (F ++ (sendEventData maxSize s o).freed)
      p1 p2 p3
    simp only [runDrains]
    refine ⟨q1, q2, ?_⟩
    simpa [List.append_assoc] using q3

lemma initQueue_wf (chunks : List EventChunk) :
    tailZero (chunks.map fun c => ({ chunk := c, bytesSent := 0 } : EventChunkInfo)) ∧
    frontLe (chunks.map fun c => ({ chunk := c, bytesSent := 0 } : EventChunkInfo)) ∧
    countedFront (chunks.map fun c => ({ chunk := c, bytesSent := 0 } : EventChunkInfo)) = [] := by
  cases chunks with
  | nil => exact ⟨trivial, trivial, rfl⟩
  | cons c cs =>
    refine ⟨?_, ?_, ?_⟩
    · simp only [List.map_cons, tailZero]
      intro x hx
      simp only [List.mem_map] at hx
      obtain ⟨y, hy, rfl⟩ := hx
      rfl
    · simp [frontLe]
    · simp [countedFront]

/-- Claim C1: across any interleaving of `Success` and `NotReady` send
results over repeated drain invocations, the bytes of accepted
`EventDataUpdate` messages plus the still-pending message are exactly the
bytes of the freed chunks plus the captured prefix of the front chunk — no
byte duplicated, none lost; once the queue is drained and nothing is
pending, the accepted bytes are exactly the freed chunks' bytes and their
total count is the sum of the chunks' declared sizes. -/
theorem eventChunk_bytes_conserved
    (maxSize : Nat) (hmax : 0 < maxSize)
    (chunks : List EventChunk) (oracles : List (List Result))
    (hres : ∀ o ∈ oracles, ∀ r ∈ o, r = Result.Success ∨ r = Result.NotReady)
    (s : EventServerSession)
    (hpend : s.eventPayloadPending = false)
    (hq : s.eventChunkQueue = chunks.map fun c => { chunk := c, bytesSent := 0 }) :
    (msgBytes (runDrains maxSize s oracles).accepted ++
        pendBytes (runDrains maxSize s oracles).session
      = chunkBytes (runDrains maxSize s oracles).freed ++
        countedFront (runDrains maxSize s oracles).session.eventChunkQueue) ∧
    ((runDrains maxSize s oracles).session.eventPayloadPending = false →
      (runDrains maxSize s oracles).session.eventChunkQueue = [] →
      msgBytes (runDrains maxSize s oracles).accepted
          = chunkBytes (runDrains maxSize s oracles).freed ∧
      ((runDrains maxSize s oracles).accepted.map List.length).sum
          = ((runDrains maxSize s oracles).freed.map EventChunk.dataSize).sum) ∧
    (∀ (s2 : EventServerSession) (o2 : List Result), s2.eventPayloadPending = true →
      (sendEventData maxSize s2 o2).accepted ≠ [] →
      (sendEventData maxSize s2 o2).accepted.head? = some s2.eventPayloadContainer) := by
  obtain ⟨w1, w2, w3⟩ := initQueue_wf chunks
  rw [← hq] at w1 w2 w3
  have hinv0 : msgBytes [] ++ pendBytes s = chunkBytes [] ++ countedFront s.eventChunkQueue := by
    simp [pendBytes, hpend, w3]
  obtain ⟨q1, q2, q3⟩ := runDrains_preserve maxSize hmax oracles s [] [] w1 w2 hinv0
  simp only [List.nil_append] at q3
  refine ⟨q3, ?_, ?_⟩
  · intro hpf hqe
    have hbytes : msgBytes (runDrains maxSize s oracles).accepted
        = chunkBytes (runDrains maxSize s oracles).freed := by
      have := q3
      simpa [pendBytes, hpf, hqe, countedFront] using this
    refine ⟨hbytes, ?_⟩
    have hlen := congrArg List.length hbytes
    simpa [msgBytes, chunkBytes, EventChunk.dataSize, Function.comp] using hlen
  · intro s2 o2 hp2 hne
    obtain ⟨r, rest, hsend⟩ : ∃ r rest, sendStep o2 = (r, rest) := ⟨_, _, rfl⟩
    by_cases hr : r = Result.Success
    · subst hr
      by_cases hq2 : s2.eventChunkQueue = []
      · simp [sendEventData, hp2, hsend, hq2]
      · simp [sendEventData, hp2, hsend, hq2]
    · exfalso
      apply hne
      simp [sendEventData, hp2, hsend, hr]



/-- Claim C3 (amended): in `SendPayload`, a `Success` send moves the session
to `ReceivePayload`; every other outcome — `NotReady`, but also `Error` and
`EndOfStream` — leaves it in `SendPayload` to be retried on the next call,
with no fatal assertion (the source has no assert in this branch). -/
theorem sendResponse_state_step (env : Env) (s : EventServerSession)
    (r : Result) (rest : List Result)
    (hstate : s.state = SessionState.SendPayload)
    (horacle : env.sendOracle = r :: rest) :
    updateSession env s = some
      { session := if r = Result.Success then { s with state := SessionState.ReceivePayload } else s
        oracle := rest
        accepted := []
        freed := []
        fatal := false } := by
  by_cases hr : r = Result.Success <;>
    simp [updateSession, hstate, horacle, sendStep, hr]

/-- Claim C3 counterexample: a send returning `Error` in `SendPayload` is a
silent retry — the session is unchanged (still `SendPayload`) and no fatal
contract violation is recorded, contrary to the claim. -/
theorem sendResponse_error_silent_retry :
    updateSession
      { recvResult := Result.Success
        recvPayload := Payload.queryProvidersRequest
        sendOracle := [Result.Error]
        openBlockResult := none
        applyUpdate := fun _ => Result.Success
        queryProvidersResult := (Result.Success, 0)
        maxEventDataSize := 512 }
      { state := SessionState.SendPayload
        payloadContainer := Payload.applyProviderUpdatesResponse Result.Success
        updateBlock := none
        eventPayloadPending := false
        eventPayloadContainer := []
        eventChunkQueue := [] }
    = some
      { session :=
          { state := SessionState.SendPayload
            payloadContainer := Payload.applyProviderUpdatesResponse Result.Success
            updateBlock := none
            eventPayloadPending := false
            eventPayloadContainer := []
            eventChunkQueue := [] }
        oracle := []
        accepted := []
        freed := []
        fatal := false } := by
  rfl

/-- Claim C4: with a block already open, `AllocateProviderUpdatesRequest`
answers `Error` with the invalid-block sentinel and keeps the existing
block; issued twice without closing, the first answer is `Success` with the
new block's id and the second is `Error` with the sentinel. -/
theorem allocate_block_exclusive (env1 env2 : Env) (s : EventServerSession) :
    (∀ b0 : ServerBlock, s.updateBlock = some b0 →
      handleAllocateProviderUpdatesRequest env1 s =
        { s with
          payloadContainer := Payload.allocateProviderUpdatesResponse Result.Error kInvalidBlockId
          state := SessionState.SendPayload }) ∧
    (∀ b : ServerBlock, s.updateBlock = none → env1.openBlockResult = some b →
      (handleAllocateProviderUpdatesRequest env1 s).payloadContainer
          = Payload.allocateProviderUpdatesResponse Result.Success b.blockId ∧
      (handleAllocateProviderUpdatesRequest env1 s).updateBlock = some b ∧
      handleAllocateProviderUpdatesRequest env2 (handleAllocateProviderUpdatesRequest env1 s)
        = { handleAllocateProviderUpdatesRequest env1 s with
            payloadContainer := Payload.allocateProviderUpdatesResponse Result.Error kInvalidBlockId
            state := SessionState.SendPayload }) := by
  constructor
  · intro b0 hb
    simp [handleAllocateProviderUpdatesRequest, hb]
  · intro b hb hopen
    have h1 : handleAllocateProviderUpdatesRequest env1 s =
        { s with
          updateBlock := some b
          payloadContainer := Payload.allocateProviderUpdatesResponse Result.Success b.blockId
          state := SessionState.SendPayload } := by
      simp [handleAllocateProviderUpdatesRequest, hb, hopen]
    rw [h1]
    refine ⟨rfl, rfl, ?_⟩
    simp [handleAllocateProviderUpdatesRequest]

/-- Claim C10: when no block is held and the transfer manager fails to open
one, the response still carries `Error` and the invalid-block sentinel, the
session still holds no block and moves to `SendPayload`; a later allocation
attempt with an available block succeeds. -/
theorem allocate_open_failure_recovers (env1 env2 : Env) (s : EventServerSession)
    (h0 : s.updateBlock = none) (h1 : env1.openBlockResult = none) :
    handleAllocateProviderUpdatesRequest env1 s =
      { s with
        updateBlock := none
        payloadContainer := Payload.allocateProviderUpdatesResponse Result.Error kInvalidBlockId
        state := SessionState.SendPayload } ∧
    (handleAllocateProviderUpdatesRequest env1 s).updateBlock = none ∧
    (handleAllocateProviderUpdatesRequest env1 s).state = SessionState.SendPayload ∧
    (∀ b : ServerBlock, env2.openBlockResult = some b →
      (handleAllocateProviderUpdatesRequest env2 (handleAllocateProviderUpdatesRequest env1 s)).payloadContainer
          = Payload.allocateProviderUpdatesResponse Result.Success b.blockId ∧
      (handleAllocateProviderUpdatesRequest env2 (handleAllocateProviderUpdatesRequest env1 s)).updateBlock
          = some b) := by
  have hstep : handleAllocateProviderUpdatesRequest env1 s =
      { s with
        updateBlock := none
        payloadContainer := Payload.allocateProviderUpdatesResponse Result.Error kInvalidBlockId
        state := SessionState.SendPayload } := by
    simp [handleAllocateProviderUpdatesRequest, h0, h1]
  refine ⟨hstep, by rw [hstep], by rw [hstep], ?_⟩
  intro b hopen
  rw [hstep]
  constructor <;> simp [handleAllocateProviderUpdatesRequest, hopen]

/-- Claim C9: the record walk terminates whenever every record inside the
block declares a strictly positive offset to the next record (fuel
`size - byteOffset` suffices); with a zero-offset record that applies
successfully it runs forever (every fuel is exhausted). -/
theorem applyWalk_zero_offset_diverges :
    (∀ (size : Nat) (recordAt : Nat → ProviderUpdateHeader)
      (applyFn : ProviderUpdateHeader → Result)
      (fuel byteOffset : Nat) (r : Result) (applied : List Nat),
      (∀ o, o < size → 1 ≤ (recordAt o).nextOffset) →
      size - byteOffset ≤ fuel →
      (applyWalk fuel size recordAt applyFn byteOffset r applied).isSome = true) ∧
    (∀ (fuel : Nat) (applied : List Nat),
      applyWalk fuel 1 (fun _ => { nextOffset := 0 })
        (fun _ => Result.Success) 0 Result.Success applied = none) := by
  constructor
  · intro size recordAt applyFn fuel
    induction fuel with
    | zero =>
      intro byteOffset r applied hpos hfuel
      rw [applyWalk]
      have : ¬(byteOffset < size ∧ r = Result.Success) := by
        intro ⟨hlt, _⟩
        omega
      simp [this]
    | succ fuel ih =>
      intro byteOffset r applied hpos hfuel
      rw [applyWalk]
      by_cases hg : byteOffset < size ∧ r = Result.Success
      · rw [if_pos hg]
        dsimp only
        apply ih
        · exact hpos
        · have := hpos byteOffset hg.1
          omega
      · rw [if_neg hg]
        rfl
  · intro fuel
    induction fuel with
    | zero =>
      intro applied
      rw [applyWalk]
      simp
    | succ fuel ih =>
      intro applied
      rw [applyWalk]
      simpa using ih (applied ++ [0])

/-- Claim C2 evaluation at the failing input: an open block of declared
size 2 whose record at offset 0 declares a next-record offset of 3, with a
registry accepting every update.  The walk ends at cursor 3 having applied
only the record at offset 0, and the handler answers a `Success` status —
the `byteOffset == GetBlockDataSize()` debug assertion fires (flag `true`)
but no failure status is produced, contradicting the claim. -/
theorem applyOvershoot_reports_success :
    applyWalk 2 2 (ServerBlock.recordAt { blockId := 1, size := 2, records := [{ nextOffset := 3 }] })
        (fun _ => Result.Success) 0 Result.Success []
      = some (Result.Success, 3, [0]) ∧
    handleApplyProviderUpdatesRequest
      { recvResult := Result.Success
        recvPayload := Payload.applyProviderUpdatesRequest
        sendOracle := []
        openBlockResult := none
        applyUpdate := fun _ => Result.Success
        queryProvidersResult := (Result.Success, 0)
        maxEventDataSize := 512 }
      { state := SessionState.ProcessPayload
        payloadContainer := Payload.applyProviderUpdatesRequest
        updateBlock := some { blockId := 1, size := 2, records := [{ nextOffset := 3 }] }
        eventPayloadPending := false
        eventPayloadContainer := []
        eventChunkQueue := [] }
    = some
      ({ state := SessionState.SendPayload
         payloadContainer := Payload.applyProviderUpdatesResponse Result.Success
         updateBlock := some { blockId := 1, size := 2, records := [{ nextOffset := 3 }] }
         eventPayloadPending := false
         eventPayloadContainer := []
         eventChunkQueue := [] }, true) := by
  constructor <;> rfl



lemma session_eta_pending_true (s : EventServerSession)
    (h : s.eventPayloadPending = true) :
    ({ s with eventPayloadPending := true } : EventServerSession) = s := by
  cases s
  simp_all

lemma session_eta_pending_false (s : EventServerSession)
    (h : s.eventPayloadPending = false) :
    ({ s with eventPayloadPending := false } : EventServerSession) = s := by
  cases s
  simp_all

/-- Claim C8: with the pending flag set on entry, the drain first re-sends
the stored event message; if that send does not succeed the drain stops with
the session unchanged (flag still set, queue untouched, nothing accepted);
if it succeeds, the drain continues exactly as from the flag-cleared state,
with the stored message prepended to the accepted list. -/
theorem pending_message_retried_first (maxSize : Nat) (s : EventServerSession)
    (r : Result) (rest : List Result)
    (hpend : s.eventPayloadPending = true) :
    (r ≠ Result.Success →
      sendEventData maxSize s (r :: rest) =
        { session := s, oracle := rest, accepted := [], freed := [], fatal := false }) ∧
    (r = Result.Success →
      sendEventData maxSize s (r :: rest) =
        { sendEventData maxSize { s with eventPayloadPending := false } rest with
          accepted := s.eventPayloadContainer ::
            (sendEventData maxSize { s with eventPayloadPending := false } rest).accepted }) := by
  constructor
  · intro hr
    have hstep : sendEventData maxSize s (r :: rest) =
        { session := { s with eventPayloadPending := true }
          oracle := rest
          accepted := []
          freed := []
          fatal := false } := by
      simp [sendEventData, hpend, sendStep, hr]
    rw [hstep, session_eta_pending_true s hpend]
  · intro hr
    subst hr
    by_cases hq : s.eventChunkQueue = []
    · have hL : sendEventData maxSize s (Result.Success :: rest) =
          { session := { s with eventPayloadPending := false }
            oracle := rest
            accepted := [s.eventPayloadContainer]
            freed := []
            fatal := false } := by
        simp [sendEventData, hpend, sendStep, hq]
      have hR : sendEventData maxSize { s with eventPayloadPending := false } rest =
          { session := { s with eventPayloadPending := false }
            oracle := rest
            accepted := []
            freed := []
            fatal := false } := by
        simp [sendEventData, hq]
      rw [hL, hR]
    · have hL : sendEventData maxSize s (Result.Success :: rest) =
          { session := { s with
              eventPayloadPending := (chunkLoop maxSize s.eventChunkQueue s.eventPayloadContainer rest).pending
              eventPayloadContainer := (chunkLoop maxSize s.eventChunkQueue s.eventPayloadContainer rest).container
              eventChunkQueue := (chunkLoop maxSize s.eventChunkQueue s.eventPayloadContainer rest).queue }
            oracle := (chunkLoop maxSize s.eventChunkQueue s.eventPayloadContainer rest).oracle
            accepted := s.eventPayloadContainer ::
              (chunkLoop maxSize s.eventChunkQueue s.eventPayloadContainer rest).accepted
            freed := (chunkLoop maxSize s.eventChunkQueue s.eventPayloadContainer rest).freed
            fatal := (chunkLoop maxSize s.eventChunkQueue s.eventPayloadContainer rest).fatal } := by
        simp [sendEventData, hpend, sendStep, hq]
      have hR : sendEventData maxSize { s with eventPayloadPending := false } rest =
          { session := { s with
              eventPayloadPending := (chunkLoop maxSize s.eventChunkQueue s.eventPayloadContainer rest).pending
              eventPayloadContainer := (chunkLoop maxSize s.eventChunkQueue s.eventPayloadContainer rest).container
              eventChunkQueue := (chunkLoop maxSize s.eventChunkQueue s.eventPayloadContainer rest).queue }
            oracle := (chunkLoop maxSize s.eventChunkQueue s.eventPayloadContainer rest).oracle
            accepted := (chunkLoop maxSize s.eventChunkQueue s.eventPayloadContainer rest).accepted
            freed := (chunkLoop maxSize s.eventChunkQueue s.eventPayloadContainer rest).freed
            fatal := (chunkLoop maxSize s.eventChunkQueue s.eventPayloadContainer rest).fatal } := by
        simp [sendEventData, hq]
      rw [hL, hR]

/-- Claim C6: in `ReceivePayload`, a `Success` receive moves to
`ProcessPayload` with the received payload; `NotReady` invokes the
event-streaming drain (and with an empty queue and no pending message
nothing is sent and the session is unchanged); `EndOfStream` or `Error`
leave the session unchanged without sending anything. -/
theorem receive_state_step (env : Env) (s : EventServerSession)
    (hstate : s.state = SessionState.ReceivePayload) :
    (env.recvResult = Result.Success →
      updateSession env s = some
        { session := { s with
            state := SessionState.ProcessPayload
            payloadContainer := env.recvPayload }
          oracle := env.sendOracle
          accepted := []
          freed := []
          fatal := false }) ∧
    (env.recvResult = Result.NotReady →
      updateSession env s = some (sendEventData env.maxEventDataSize s env.sendOracle) ∧
      (s.eventChunkQueue = [] → s.eventPayloadPending = false →
        updateSession env s = some
          { session := s
            oracle := env.sendOracle
            accepted := []
            freed := []
            fatal := false })) ∧
    ((env.recvResult = Result.EndOfStream ∨ env.recvResult = Result.Error) →
      updateSession env s = some
        { session := s
          oracle := env.sendOracle
          accepted := []
          freed := []
          fatal := false }) := by
  refine ⟨?_, ?_, ?_⟩
  · intro hr
    simp [updateSession, hstate, hr]
  · intro hr
    constructor
    · simp [updateSession, hstate, hr]
    · intro hq hpend
      cases s with
      | mk st pc ub ep ec equ =>
        simp only at hstate hq hpend
        subst hstate
        subst hq
        subst hpend
        simp [updateSession, hr, sendEventData]
  · intro hr
    rcases hr with hr | hr <;> simp [updateSession, hstate, hr]



/-- Claim C5 (amended): when the first slice's send returns an outcome other
than `Success` or `NotReady`, the drain loop stops and the chunk stays
queued (not freed) — but its cursor has already been advanced by the slice
size at message-build time, and the built slice is held in the pending
container for verbatim retry; the cursor advance is unconditional, not
`Success`-only. -/
theorem drain_error_keeps_chunk_queued (maxSize : Nat) (s : EventServerSession)
    (r : Result) (rest : List Result) (ci : EventChunkInfo) (qrest : List EventChunkInfo)
    (hpend : s.eventPayloadPending = false)
    (hq : s.eventChunkQueue = ci :: qrest)
    (hb : ci.bytesSent < ci.chunk.dataSize)
    (hmax : 0 < maxSize)
    (hr1 : r ≠ Result.Success) (hr2 : r ≠ Result.NotReady) :
    sendEventData maxSize s (r :: rest) =
      { session := { s with
          eventPayloadPending := true
          eventPayloadContainer := (ci.chunk.data.drop ci.bytesSent).take
            (min (ci.chunk.dataSize - ci.bytesSent) maxSize)
          eventChunkQueue :=
            EventChunkInfo.mk ci.chunk
              (ci.bytesSent + min (ci.chunk.dataSize - ci.bytesSent) maxSize) :: qrest }
        oracle := rest
        accepted := []
        freed := []
        fatal := false } := by
  have hb' : ci.bytesSent < ci.chunk.data.length := hb
  have hsl := sliceLoop_fail maxSize ci.chunk.data ci.bytesSent s.eventPayloadContainer r rest
    hb' hmax hr1
  have hfatal : decide (ci.chunk.dataSize = 0 ∨ ci.chunk.dataSize - ci.bytesSent = 0) = false := by
    simp only [decide_eq_false_iff_not]
    simp only [EventChunk.dataSize]
    omega
  have hcl : chunkLoop maxSize (ci :: qrest) s.eventPayloadContainer (r :: rest) =
      { queue :=
          EventChunkInfo.mk ci.chunk
            (ci.bytesSent + min (ci.chunk.data.length - ci.bytesSent) maxSize) :: qrest
        pending := true
        container := (ci.chunk.data.drop ci.bytesSent).take
          (min (ci.chunk.data.length - ci.bytesSent) maxSize)
        oracle := rest
        accepted := []
        freed := []
        fatal := false } := by
    rw [chunkLoop]
    dsimp only
    rw [hsl]
    dsimp only
    rw [if_neg hr1, if_neg hr2, hfatal]
  have hfinal : sendEventData maxSize s (r :: rest) =
      { session := { s with
          eventPayloadPending := true
          eventPayloadContainer := (ci.chunk.data.drop ci.bytesSent).take
            (min (ci.chunk.data.length - ci.bytesSent) maxSize)
          eventChunkQueue :=
            EventChunkInfo.mk ci.chunk
              (ci.bytesSent + min (ci.chunk.data.length - ci.bytesSent) maxSize) :: qrest }
        oracle := rest
        accepted := []
        freed := []
        fatal := false } := by
    simp [sendEventData, hpend, hq, hcl]
  rw [hfinal]
  rfl

/-- Claim C5 counterexample: a one-byte chunk whose only slice send returns
`Error` ends with its sent-bytes cursor advanced to 1 — the cursor is not
left untouched at 0 as the claim states. -/
theorem drain_error_cursor_advances :
    (sendEventData 4
        { state := SessionState.ReceivePayload
          payloadContainer := Payload.queryProvidersRequest
          updateBlock := none
          eventPayloadPending := false
          eventPayloadContainer := []
          eventChunkQueue := [{ chunk := { data := [7] }, bytesSent := 0 }] }
        [Result.Error]).session.eventChunkQueue
      = [{ chunk := { data := [7] }, bytesSent := 1 }] ∧
    (sendEventData 4
        { state := SessionState.ReceivePayload
          payloadContainer := Payload.queryProvidersRequest
          updateBlock := none
          eventPayloadPending := false
          eventPayloadContainer := []
          eventChunkQueue := [{ chunk := { data := [7] }, bytesSent := 0 }] }
        [Result.Error]).session.eventChunkQueue
      ≠ [{ chunk := { data := [7] }, bytesSent := 0 }] := by
  have hsl := sliceLoop_fail 4 [7] 0 [] Result.Error []
    (by norm_num) (by norm_num) (by simp)
  have hcl : chunkLoop 4 [{ chunk := { data := [7] }, bytesSent := 0 }] [] [Result.Error] =
      { queue := [{ chunk := { data := [7] }, bytesSent := 1 }]
        pending := true
        container := [7]
        oracle := []
        accepted := []
        freed := []
        fatal := false } := by
    rw [chunkLoop]
    dsimp only
    rw [hsl]
    simp [EventChunk.dataSize]
  have hout : (sendEventData 4
      { state := SessionState.ReceivePayload
        payloadContainer := Payload.queryProvidersRequest
        updateBlock := none
        eventPayloadPending := false
        eventPayloadContainer := []
        eventChunkQueue := [{ chunk := { data := [7] }, bytesSent := 0 }] }
      [Result.Error]).session.eventChunkQueue
      = [{ chunk := { data := [7] }, bytesSent := 1 }] := by
    simp [sendEventData, hcl]
  exact ⟨hout, by rw [hout]; decide⟩



/-- Claim C7: a single queued chunk of 1000 bytes with a 512-byte maximum
payload and all sends succeeding produces exactly the two messages
`take 512` (512 bytes) and the remaining 488 bytes, and the chunk is
removed from the queue and freed within that same invocation. -/
theorem chunk1000_two_messages (d : List Nat) (hlen : d.length = 1000)
    (s : EventServerSession)
    (hpend : s.eventPayloadPending = false)
    (hq : s.eventChunkQueue = [{ chunk := { data := d }, bytesSent := 0 }]) :
    sendEventData 512 s [Result.Success, Result.Success] =
      { session := { s with
          eventPayloadPending := false
          eventPayloadContainer := (d.drop 512).take 488
          eventChunkQueue := [] }
        oracle := []
        accepted := [d.take 512, (d.drop 512).take 488]
        freed := [{ data := d }]
        fatal := false } ∧
    (d.take 512).length = 512 ∧ ((d.drop 512).take 488).length = 488 := by
  have h1 : sliceLoop 512 d 512 (d.take 512) [Result.Success] =
      { bytesSent := 1000
        container := (d.drop 512).take 488
        oracle := []
        accepted := [(d.drop 512).take 488]
        result := Result.Success } := by
    rw [sliceLoop_succ 512 d 512 (d.take 512) [] (by omega) (by norm_num)]
    have e1 : min (d.length - 512) 512 = 488 := by omega
    rw [e1]
    rw [sliceLoop_done 512 d (512 + 488) ((d.drop 512).take 488) [] (by omega)]
  have h2 : sliceLoop 512 d 0 s.eventPayloadContainer [Result.Success, Result.Success] =
      { bytesSent := 1000
        container := (d.drop 512).take 488
        oracle := []
        accepted := [d.take 512, (d.drop 512).take 488]
        result := Result.Success } := by
    rw [sliceLoop_succ 512 d 0 s.eventPayloadContainer [Result.Success] (by omega) (by norm_num)]
    have e0 : min (d.length - 0) 512 = 512 := by omega
    simp only [e0, List.drop_zero, Nat.zero_add]
    rw [h1]
  have h3 : chunkLoop 512 [{ chunk := { data := d }, bytesSent := 0 }]
        s.eventPayloadContainer [Result.Success, Result.Success] =
      { queue := []
        pending := false
        container := (d.drop 512).take 488
        oracle := []
        accepted := [d.take 512, (d.drop 512).take 488]
        freed := [{ data := d }]
        fatal := false } := by
    rw [chunkLoop]
    dsimp only
    rw [h2]
    rw [chunkLoop]
    simp [EventChunk.dataSize, hlen]
  refine ⟨?_, by simp [hlen], by simp [hlen]⟩
  simp [sendEventData, hpend, hq, h3]

/-- Witness for claim C1 at a three-byte chunk and a Success/NotReady
interleaving across two drain invocations. -/
theorem eventChunk_bytes_conserved_w :
    msgBytes (runDrains 2 sC1W [[Result.Success, Result.NotReady], [Result.Success]]).accepted ++
        pendBytes (runDrains 2 sC1W [[Result.Success, Result.NotReady], [Result.Success]]).session
      = chunkBytes (runDrains 2 sC1W [[Result.Success, Result.NotReady], [Result.Success]]).freed ++
        countedFront (runDrains 2 sC1W
          [[Result.Success, Result.NotReady], [Result.Success]]).session.eventChunkQueue :=
  (eventChunk_bytes_conserved 2 (by norm_num) [{ data := [1, 2, 3] }]
    [[Result.Success, Result.NotReady], [Result.Success]] (by decide) sC1W rfl rfl).1

/-- Witness for claim C3 (amended) at a `NotReady` send outcome. -/
theorem sendResponse_state_step_w :
    updateSession { baseEnv with sendOracle := [Result.NotReady] } sSendW = some
      { session := if Result.NotReady = Result.Success
          then { sSendW with state := SessionState.ReceivePayload } else sSendW
        oracle := []
        accepted := []
        freed := []
        fatal := false } :=
  sendResponse_state_step { baseEnv with sendOracle := [Result.NotReady] } sSendW
    Result.NotReady [] rfl rfl

/-- Witness for claim C4: allocate twice without closing. -/
theorem allocate_block_exclusive_w :
    (handleAllocateProviderUpdatesRequest { baseEnv with openBlockResult := some blockW }
        baseSession).payloadContainer
      = Payload.allocateProviderUpdatesResponse Result.Success blockW.blockId ∧
    handleAllocateProviderUpdatesRequest baseEnv
        (handleAllocateProviderUpdatesRequest { baseEnv with openBlockResult := some blockW }
          baseSession)
      = { handleAllocateProviderUpdatesRequest { baseEnv with openBlockResult := some blockW }
            baseSession with
          payloadContainer := Payload.allocateProviderUpdatesResponse Result.Error kInvalidBlockId
          state := SessionState.SendPayload } :=
  ⟨((allocate_block_exclusive { baseEnv with openBlockResult := some blockW } baseEnv
      baseSession).2 blockW rfl rfl).1,
   ((allocate_block_exclusive { baseEnv with openBlockResult := some blockW } baseEnv
      baseSession).2 blockW rfl rfl).2.2⟩

/-- Witness for claim C10: a failed open followed by a successful one. -/
theorem allocate_open_failure_recovers_w :
    handleAllocateProviderUpdatesRequest baseEnv baseSession =
      { baseSession with
        updateBlock := none
        payloadContainer := Payload.allocateProviderUpdatesResponse Result.Error kInvalidBlockId
        state := SessionState.SendPayload } ∧
    (handleAllocateProviderUpdatesRequest { baseEnv with openBlockResult := some blockW }
        (handleAllocateProviderUpdatesRequest baseEnv baseSession)).updateBlock = some blockW :=
  ⟨(allocate_open_failure_recovers baseEnv { baseEnv with openBlockResult := some blockW }
      baseSession rfl rfl).1,
   ((allocate_open_failure_recovers baseEnv { baseEnv with openBlockResult := some blockW }
      baseSession rfl rfl).2.2.2 blockW rfl).2⟩

/-- Witness for claim C9: three unit-offset records walk to completion. -/
theorem applyWalk_zero_offset_diverges_w :
    (applyWalk 3 3 (fun _ => { nextOffset := 1 }) (fun _ => Result.Success)
      0 Result.Success []).isSome = true :=
  applyWalk_zero_offset_diverges.1 3 (fun _ => { nextOffset := 1 }) (fun _ => Result.Success)
    3 0 Result.Success [] (fun o ho => le_refl 1) (by norm_num)

/-- Witness for claim C8: a pending message whose resend is not ready. -/
theorem pending_message_retried_first_w :
    sendEventData 4 sPendW [Result.NotReady] =
      { session := sPendW, oracle := [], accepted := [], freed := [], fatal := false } :=
  (pending_message_retried_first 4 sPendW Result.NotReady [] rfl).1 (by decide)

/-- Witness for claim C6: `NotReady` receive with an idle event stream. -/
theorem receive_state_step_w :
    updateSession baseEnv baseSession = some
      { session := baseSession, oracle := [], accepted := [], freed := [], fatal := false } :=
  ((receive_state_step baseEnv baseSession rfl).2.1 rfl).2 rfl rfl

/-- Witness for claim C5 (amended): an `EndOfStream` outcome on a two-byte
chunk advances the cursor to 2 and holds the slice pending. -/
theorem drain_error_keeps_chunk_queued_w :
    sendEventData 4 sErrW [Result.EndOfStream] =
      { session := { sErrW with
          eventPayloadPending := true
          eventPayloadContainer := [5, 6]
          eventChunkQueue := [{ chunk := { data := [5, 6] }, bytesSent := 2 }] }
        oracle := []
        accepted := []
        freed := []
        fatal := false } := by
  have h := drain_error_keeps_chunk_queued 4 sErrW Result.EndOfStream []
    { chunk := { data := [5, 6] }, bytesSent := 0 } [] rfl rfl (by decide) (by decide)
    (by decide) (by decide)
  simpa [EventChunk.dataSize] using h

/-- Witness for claim C7 at the all-zero 1000-byte chunk. -/
theorem chunk1000_two_messages_w :
    (sendEventData 512 s7W [Result.Success, Result.Success]).accepted.map List.length
      = [512, 488] ∧
    (sendEventData 512 s7W [Result.Success, Result.Success]).freed
      = [{ data := List.replicate 1000 0 }] := by
  have h := chunk1000_two_messages (List.replicate 1000 0) (by rw [List.length_replicate]) s7W rfl rfl
  rw [h.1]
  refine ⟨?_, rfl⟩
  rw [List.map_cons, List.map_cons, List.map_nil, h.2.1, h.2.2]

end EventProtocol
